import Mathlib

/-!
Shallow embedding of the `async-subscription-map` crate (`src/lib.rs`).

The crate is a mutex-guarded `BTreeMap<K, SubscriptionEntry<V>>` where each
entry pairs an `Observable<V>` with a subscriber reference count `rc`.
Every public operation acquires the single map lock, runs a short synchronous
critical section, and releases the lock; we therefore model each critical
section as a pure state transition on the map contents, and model an
interleaving of critical sections as function composition.  The `BTreeMap`
is modelled as an association list with at most one binding per key (the
per-key uniqueness that `BTreeMap` guarantees appears as a `countKey _ _ ≤ 1`
hypothesis where a theorem needs it).

The `Observable` primitive comes from the external `async_observable` crate
and is out of scope of the repository; it is modelled from the spec
(section 6 capability set) as a value plus a version counter.
-/

namespace AsyncSubscriptionMap

/-- Modelled from the spec: the external `Observable` primitive (spec §6),
consumed but not implemented by this crate.  It is a single-value holder
with change detection; we represent the shared stream state as the current
value together with a version counter that publishing bumps, so "a new
version was emitted" is visible as a version increment. -/
structure Observable (V : Type) where
  value : V
  version : Nat
deriving DecidableEq

namespace Observable

/-- Modelled from the spec: `construct(initial_value)` yields an instance
holding that value. -/
def new {V : Type} (v : V) : Observable V :=
  { value := v, version := 0 }

/-- Modelled from the spec: `clone()` yields an independent cursor sharing the
same underlying value/version stream; the shared stream state is identical. -/
def clone {V : Type} (o : Observable V) : Observable V := o

/-- Modelled from the spec: `publish_if_changed(value)` stores and notifies
only if `value` differs from the current one, and returns whether it did. -/
def publish_if_changed {V : Type} [DecidableEq V] (o : Observable V) (v : V) :
    Bool × Observable V :=
  if v = o.value then (false, o)
  else (true, { value := v, version := o.version + 1 })

/-- Modelled from the spec: `modify(mutator)` applies an in-place mutation and
unconditionally notifies waiters as a new version (no equality check). -/
def modify {V : Type} (o : Observable V) (f : V → V) : Observable V :=
  { value := f o.value, version := o.version + 1 }

end Observable

/-- `SubscriptionEntry<V>`: a single observable entry and its subscription
count (`src/lib.rs`, struct `SubscriptionEntry`). -/
structure SubscriptionEntry (V : Type) where
  observable : Observable V
  rc : Nat
deriving DecidableEq

/-- `SubscriptionEntry::new(value)`: wraps the value into a fresh observable
with count 0 (`src/lib.rs` lines 81-87). -/
def SubscriptionEntry.new {V : Type} (v : V) : SubscriptionEntry V :=
  { observable := Observable.new v, rc := 0 }

/-- The contents of the mutex-guarded `BTreeMap<K, SubscriptionEntry<V>>`,
as an association list. -/
abbrev SubscriptionMap (K V : Type) := List (K × SubscriptionEntry V)

variable {K V : Type} [DecidableEq K]

/-- `map.get(key)` / `map.get_mut(key)`: first binding of the key. -/
def lookupEntry : SubscriptionMap K V → K → Option (SubscriptionEntry V)
  | [], _ => none
  | (k2, e) :: rest, k => if k2 = k then some e else lookupEntry rest k

/-- Writing back through a `get_mut`-style borrow: replace the first binding
of the key (a no-op when the key is absent). -/
def setEntry : SubscriptionMap K V → K → SubscriptionEntry V → SubscriptionMap K V
  | [], _, _ => []
  | (k2, e2) :: rest, k, e =>
      if k2 = k then (k2, e) :: rest else (k2, e2) :: setEntry rest k e

/-- `map.remove(key)`: delete the first binding of the key. -/
def eraseKey : SubscriptionMap K V → K → SubscriptionMap K V
  | [], _ => []
  | (k2, e2) :: rest, k => if k2 = k then rest else (k2, e2) :: eraseKey rest k

/-- Number of bindings the map holds for a key (`BTreeMap` keeps this at most
1; we carry it as a hypothesis where needed). -/
def countKey (m : SubscriptionMap K V) (k : K) : Nat :=
  (m.filter (fun p => decide (p.1 = k))).length

/-- `map.entry(key).or_insert(entry)` (`src/lib.rs` line 104): yields the
entry now stored under the key, inserting the supplied one first when the
key is vacant. -/
def entryOrInsert (m : SubscriptionMap K V) (k : K) (e0 : SubscriptionEntry V) :
    SubscriptionEntry V × SubscriptionMap K V :=
  match lookupEntry m k with
  | some e => (e, m)
  | none => (e0, m ++ [(k, e0)])

/-- `SubscriptionRef<K, V>` (`src/lib.rs` lines 215-223): the caller-held
handle.  Its `owner` field is a clone of the registry handle; since registry
clones share one underlying state, the registry is represented in this pure
embedding by the threaded `SubscriptionMap` state itself, and the handle
keeps the remaining data: its key and its cloned observable cursor. -/
structure SubscriptionRef (K V : Type) where
  key : K
  observable : Observable V
deriving DecidableEq

/-- `SubscriptionRef::new` (`src/lib.rs` lines 230-238): increments the
entry's count by 1 and builds the handle from the key and a clone of the
entry's observable.  Returns the handle together with the updated entry
(the Rust code mutates the entry in place through the map borrow). -/
def SubscriptionRef.new {K V : Type} (k : K) (e : SubscriptionEntry V) :
    SubscriptionRef K V × SubscriptionEntry V :=
  ({ key := k, observable := e.observable.clone }, { e with rc := e.rc + 1 })

/-- `SubscriptionMap::get_or_insert` (`src/lib.rs` lines 100-108): under the
lock, construct a fresh count-0 entry wrapping the value, `or_insert` it,
then `SubscriptionRef::new` on the entry now in the map. -/
def SubscriptionMap.get_or_insert (m : SubscriptionMap K V) (k : K) (v : V) :
    SubscriptionRef K V × SubscriptionMap K V :=
  let p := entryOrInsert m k (SubscriptionEntry.new v)
  let q := SubscriptionRef.new k p.1
  (q.1, setEntry p.2 k q.2)

/-- Outcome of `SubscriptionMap::remove`: `ok` (slot deleted), the
`anyhow` context error for an absent key, or the `assert!` panic for a
nonzero count. -/
inductive RemoveResult
  | ok
  | errNotFound
  | panicked
deriving DecidableEq

/-- `SubscriptionMap::remove` (`src/lib.rs` lines 115-131): under the lock,
look the key up (absent ⇒ context error), `assert!(entry.rc == 0)`
(violated ⇒ panic, map untouched), then delete the slot. -/
def SubscriptionMap.remove (m : SubscriptionMap K V) (k : K) :
    RemoveResult × SubscriptionMap K V :=
  match lookupEntry m k with
  | none => (.errNotFound, m)
  | some e => if e.rc = 0 then (.ok, eraseKey m k) else (.panicked, m)

/-- Outcome of `SubscriptionRef::drop`; errors of the inner `remove` call are
carried for inspection but are logged, never propagated, by the drop. -/
inductive DropOutcome
  | entryMissing
  | decremented
  | removed (r : RemoveResult)
deriving DecidableEq

/-- `SubscriptionRef::drop` (`src/lib.rs` lines 268-290): under the lock,
look the handle's key up (missing ⇒ log and return), decrement `rc`; if the
new count is 0, release the lock and call `remove` (a second, separate lock
acquisition, modelled by `remove` re-reading the updated state), logging any
error it returns. -/
def SubscriptionRef.drop (m : SubscriptionMap K V) (k : K) :
    DropOutcome × SubscriptionMap K V :=
  match lookupEntry m k with
  | none => (.entryMissing, m)
  | some e =>
    let e2 : SubscriptionEntry V := { e with rc := e.rc - 1 }
    let m1 := setEntry m k e2
    if e2.rc = 0 then
      let r := SubscriptionMap.remove m1 k
      (.removed r.1, r.2)
    else
      (.decremented, m1)

/-- Error value of the fallible map operations (the `anyhow` context error
for a key with no live entry). -/
inductive MapError
  | notFound
deriving DecidableEq

/-- `SubscriptionMap::publish_if_changed` (`src/lib.rs` lines 157-164):
under the lock, look the key up (absent ⇒ NotFound error) and delegate to
the observable's change-detecting publish, returning its boolean. -/
def SubscriptionMap.publish_if_changed [DecidableEq V]
    (m : SubscriptionMap K V) (k : K) (v : V) :
    Except MapError Bool × SubscriptionMap K V :=
  match lookupEntry m k with
  | none => (.error .notFound, m)
  | some e =>
    let r := e.observable.publish_if_changed v
    (.ok r.1, setEntry m k { e with observable := r.2 })

/-- `SubscriptionMap::modify_and_publish` (`src/lib.rs` lines 183-197):
under the lock, look the key up (absent ⇒ NotFound error) and apply the
caller's mutation through the observable's `modify` (unconditional new
version).  The Rust mutator is `FnOnce(&mut V) -> R` with the result
discarded; in-place mutation is modelled as a function `V → V`. -/
def SubscriptionMap.modify_and_publish (m : SubscriptionMap K V) (k : K) (f : V → V) :
    Except MapError Unit × SubscriptionMap K V :=
  match lookupEntry m k with
  | none => (.error .notFound, m)
  | some e => (.ok (), setEntry m k { e with observable := e.observable.modify f })

/-- The steady-state invariant of the spec (no handle destruction in
progress): every entry present in the registry has subscriber count ≥ 1. -/
def SteadyInv (m : SubscriptionMap K V) : Prop :=
  ∀ p ∈ m, 1 ≤ p.2.rc

/-! ### Association-list lemmas (the `BTreeMap` behaviours the proofs need) -/

theorem lookupEntry_nil (k : K) : lookupEntry ([] : SubscriptionMap K V) k = none := rfl

theorem lookupEntry_cons (k2 : K) (e2 : SubscriptionEntry V) (rest : SubscriptionMap K V)
    (k : K) : lookupEntry ((k2, e2) :: rest) k =
      if k2 = k then some e2 else lookupEntry rest k := rfl

theorem setEntry_cons (k2 : K) (e2 : SubscriptionEntry V) (rest : SubscriptionMap K V)
    (k : K) (e : SubscriptionEntry V) : setEntry ((k2, e2) :: rest) k e =
      if k2 = k then (k2, e) :: rest else (k2, e2) :: setEntry rest k e := rfl

theorem eraseKey_cons (k2 : K) (e2 : SubscriptionEntry V) (rest : SubscriptionMap K V)
    (k : K) : eraseKey ((k2, e2) :: rest) k =
      if k2 = k then rest else (k2, e2) :: eraseKey rest k := rfl

theorem countKey_cons (k2 : K) (e2 : SubscriptionEntry V) (rest : SubscriptionMap K V)
    (k : K) : countKey ((k2, e2) :: rest) k =
      (if k2 = k then 1 else 0) + countKey rest k := by
  by_cases hk : k2 = k <;>
    simp [countKey, List.filter_cons, hk, Nat.add_comm]

theorem lookupEntry_append_self (m : SubscriptionMap K V) (k : K) (e : SubscriptionEntry V)
    (h : lookupEntry m k = none) : lookupEntry (m ++ [(k, e)]) k = some e := by
  induction m with
  | nil => simp [lookupEntry]
  | cons p rest ih =>
    obtain ⟨k2, e2⟩ := p
    rw [lookupEntry_cons] at h
    by_cases hk : k2 = k
    · rw [if_pos hk] at h
      exact Option.noConfusion h
    · rw [if_neg hk] at h
      rw [List.cons_append, lookupEntry_cons, if_neg hk]
      exact ih h

theorem lookupEntry_append_ne (m : SubscriptionMap K V) (k k2 : K) (e : SubscriptionEntry V)
    (h : k2 ≠ k) : lookupEntry (m ++ [(k, e)]) k2 = lookupEntry m k2 := by
  induction m with
  | nil =>
    rw [List.nil_append, lookupEntry_nil, lookupEntry_cons, lookupEntry_nil,
      if_neg (fun hh => h (Eq.symm hh))]
  | cons p rest ih =>
    obtain ⟨k3, e3⟩ := p
    rw [List.cons_append, lookupEntry_cons, lookupEntry_cons]
    by_cases hk : k3 = k2
    · rw [if_pos hk, if_pos hk]
    · rw [if_neg hk, if_neg hk, ih]

theorem lookupEntry_setEntry_self (m : SubscriptionMap K V) (k : K)
    (e e0 : SubscriptionEntry V) (h : lookupEntry m k = some e0) :
    lookupEntry (setEntry m k e) k = some e := by
  induction m with
  | nil => rw [lookupEntry_nil] at h; exact Option.noConfusion h
  | cons p rest ih =>
    obtain ⟨k2, e2⟩ := p
    rw [lookupEntry_cons] at h
    rw [setEntry_cons]
    by_cases hk : k2 = k
    · rw [if_pos hk, lookupEntry_cons, if_pos hk]
    · rw [if_neg hk] at h
      rw [if_neg hk, lookupEntry_cons, if_neg hk]
      exact ih h

theorem lookupEntry_setEntry_ne (m : SubscriptionMap K V) (k k2 : K)
    (e : SubscriptionEntry V) (h : k2 ≠ k) :
    lookupEntry (setEntry m k e) k2 = lookupEntry m k2 := by
  induction m with
  | nil => rfl
  | cons p rest ih =>
    obtain ⟨k3, e3⟩ := p
    rw [setEntry_cons]
    by_cases hk : k3 = k
    · have hne : ¬k3 = k2 := fun hh => h (hh.symm.trans hk)
      rw [if_pos hk, lookupEntry_cons, lookupEntry_cons, if_neg hne, if_neg hne]
    · rw [if_neg hk, lookupEntry_cons, lookupEntry_cons]
      by_cases hk2 : k3 = k2
      · rw [if_pos hk2, if_pos hk2]
      · rw [if_neg hk2, if_neg hk2, ih]

theorem lookupEntry_eraseKey_ne (m : SubscriptionMap K V) (k k2 : K) (h : k2 ≠ k) :
    lookupEntry (eraseKey m k) k2 = lookupEntry m k2 := by
  induction m with
  | nil => rfl
  | cons p rest ih =>
    obtain ⟨k3, e3⟩ := p
    rw [eraseKey_cons]
    by_cases hk : k3 = k
    · have hne : ¬k3 = k2 := fun hh => h (hh.symm.trans hk)
      rw [if_pos hk, lookupEntry_cons, if_neg hne]
    · rw [if_neg hk, lookupEntry_cons, lookupEntry_cons]
      by_cases hk2 : k3 = k2
      · rw [if_pos hk2, if_pos hk2]
      · rw [if_neg hk2, if_neg hk2, ih]

theorem countKey_append_self (m : SubscriptionMap K V) (k : K) (e : SubscriptionEntry V) :
    countKey (m ++ [(k, e)]) k = countKey m k + 1 := by
  simp [countKey, List.filter_append]

theorem countKey_setEntry (m : SubscriptionMap K V) (k : K) (e : SubscriptionEntry V)
    (k2 : K) : countKey (setEntry m k e) k2 = countKey m k2 := by
  induction m with
  | nil => rfl
  | cons p rest ih =>
    obtain ⟨k3, e3⟩ := p
    rw [setEntry_cons]
    by_cases hk : k3 = k
    · rw [if_pos hk, countKey_cons, countKey_cons]
    · rw [if_neg hk, countKey_cons, countKey_cons, ih]

theorem countKey_eraseKey_self (m : SubscriptionMap K V) (k : K) :
    countKey (eraseKey m k) k = countKey m k - 1 := by
  induction m with
  | nil => rfl
  | cons p rest ih =>
    obtain ⟨k2, e2⟩ := p
    rw [eraseKey_cons]
    by_cases hk : k2 = k
    · rw [if_pos hk, countKey_cons, if_pos hk]
      omega
    · rw [if_neg hk, countKey_cons, countKey_cons, if_neg hk, ih]
      omega

theorem countKey_eq_zero_iff (m : SubscriptionMap K V) (k : K) :
    countKey m k = 0 ↔ lookupEntry m k = none := by
  induction m with
  | nil => simp [countKey, lookupEntry]
  | cons p rest ih =>
    obtain ⟨k2, e2⟩ := p
    rw [countKey_cons, lookupEntry_cons]
    by_cases hk : k2 = k
    · simp [hk]
    · simp [hk, ih]

theorem lookupEntry_some_countKey_pos (m : SubscriptionMap K V) (k : K)
    (e : SubscriptionEntry V) (h : lookupEntry m k = some e) : 1 ≤ countKey m k := by
  by_contra hc
  have h0 : countKey m k = 0 := by omega
  rw [(countKey_eq_zero_iff m k).mp h0] at h
  exact Option.noConfusion h

theorem lookupEntry_mem (m : SubscriptionMap K V) (k : K) (e : SubscriptionEntry V)
    (h : lookupEntry m k = some e) : (k, e) ∈ m := by
  induction m with
  | nil => exact Option.noConfusion h
  | cons p rest ih =>
    obtain ⟨k2, e2⟩ := p
    rw [lookupEntry_cons] at h
    by_cases hk : k2 = k
    · rw [if_pos hk] at h
      subst hk
      rw [Option.some_inj] at h
      subst h
      exact List.mem_cons_self _ _
    · rw [if_neg hk] at h
      exact List.mem_cons_of_mem _ (ih h)

theorem setEntry_append_self (m : SubscriptionMap K V) (k : K)
    (e0 e : SubscriptionEntry V) (h : lookupEntry m k = none) :
    setEntry (m ++ [(k, e0)]) k e = m ++ [(k, e)] := by
  induction m with
  | nil => simp [setEntry]
  | cons p rest ih =>
    obtain ⟨k2, e2⟩ := p
    rw [lookupEntry_cons] at h
    by_cases hk : k2 = k
    · rw [if_pos hk] at h
      exact Option.noConfusion h
    · rw [if_neg hk] at h
      rw [List.cons_append, setEntry_cons, if_neg hk, ih h, List.cons_append]

theorem setEntry_entry_mem (m : SubscriptionMap K V) (k : K) (e : SubscriptionEntry V)
    (p : K × SubscriptionEntry V) (hp : p ∈ setEntry m k e) : p.2 = e ∨ p ∈ m := by
  induction m with
  | nil => exact absurd hp (List.not_mem_nil p)
  | cons q rest ih =>
    obtain ⟨k2, e2⟩ := q
    rw [setEntry_cons] at hp
    by_cases hk : k2 = k
    · rw [if_pos hk] at hp
      rcases List.mem_cons.mp hp with h1 | h1
      · left; rw [h1]
      · right; exact List.mem_cons_of_mem _ h1
    · rw [if_neg hk] at hp
      rcases List.mem_cons.mp hp with h1 | h1
      · right; rw [h1]; exact List.mem_cons_self _ _
      · rcases ih h1 with h2 | h2
        · left; exact h2
        · right; exact List.mem_cons_of_mem _ h2

theorem mem_eraseKey (m : SubscriptionMap K V) (k : K) (p : K × SubscriptionEntry V)
    (hp : p ∈ eraseKey m k) : p ∈ m := by
  induction m with
  | nil => exact absurd hp (List.not_mem_nil p)
  | cons q rest ih =>
    obtain ⟨k2, e2⟩ := q
    rw [eraseKey_cons] at hp
    by_cases hk : k2 = k
    · rw [if_pos hk] at hp
      exact List.mem_cons_of_mem _ hp
    · rw [if_neg hk] at hp
      rcases List.mem_cons.mp hp with h1 | h1
      · rw [h1]; exact List.mem_cons_self _ _
      · exact List.mem_cons_of_mem _ (ih h1)

theorem eraseKey_setEntry (m : SubscriptionMap K V) (k : K) (e : SubscriptionEntry V) :
    eraseKey (setEntry m k e) k = eraseKey m k := by
  induction m with
  | nil => rfl
  | cons p rest ih =>
    obtain ⟨k2, e2⟩ := p
    rw [setEntry_cons]
    by_cases hk : k2 = k
    · rw [if_pos hk, eraseKey_cons, if_pos hk, eraseKey_cons, if_pos hk]
    · rw [if_neg hk, eraseKey_cons, if_neg hk, eraseKey_cons, if_neg hk, ih]

/-! ### Unfolding lemmas for the operations -/

theorem get_or_insert_absent (m : SubscriptionMap K V) (k : K) (v : V)
    (h : lookupEntry m k = none) :
    SubscriptionMap.get_or_insert m k v =
      ({ key := k, observable := Observable.new v },
       m ++ [(k, { observable := Observable.new v, rc := 1 })]) := by
  simp only [SubscriptionMap.get_or_insert, entryOrInsert, SubscriptionRef.new, h,
    SubscriptionEntry.new, Observable.clone]
  rw [setEntry_append_self m k _ _ h]

theorem get_or_insert_present (m : SubscriptionMap K V) (k : K) (v : V)
    (e : SubscriptionEntry V) (h : lookupEntry m k = some e) :
    SubscriptionMap.get_or_insert m k v =
      ({ key := k, observable := e.observable },
       setEntry m k { e with rc := e.rc + 1 }) := by
  simp only [SubscriptionMap.get_or_insert, entryOrInsert, SubscriptionRef.new, h,
    Observable.clone]

theorem drop_absent (m : SubscriptionMap K V) (k : K) (h : lookupEntry m k = none) :
    SubscriptionRef.drop m k = (DropOutcome.entryMissing, m) := by
  simp [SubscriptionRef.drop, h]

theorem drop_decrement (m : SubscriptionMap K V) (k : K) (e : SubscriptionEntry V)
    (h : lookupEntry m k = some e) (h2 : 2 ≤ e.rc) :
    SubscriptionRef.drop m k =
      (DropOutcome.decremented, setEntry m k { e with rc := e.rc - 1 }) := by
  have hne : ¬(e.rc - 1 = 0) := by omega
  simp [SubscriptionRef.drop, h, hne]

theorem drop_last (m : SubscriptionMap K V) (k : K) (e : SubscriptionEntry V)
    (h : lookupEntry m k = some e) (h1 : e.rc = 1) :
    SubscriptionRef.drop m k = (DropOutcome.removed RemoveResult.ok, eraseKey m k) := by
  have hlk1 : lookupEntry (setEntry m k { e with rc := 0 }) k =
      some { e with rc := 0 } := lookupEntry_setEntry_self m k _ e h
  simp [SubscriptionRef.drop, h, h1, SubscriptionMap.remove, hlk1, eraseKey_setEntry]

/-! ### Claim theorems -/

/-- Claim C1: for every key and initial value, `get_or_insert` — in one
critical section under the map lock — inserts a fresh count-0 entry wrapping
the initial value when the key is vacant; in either case it increments that
entry's count by exactly 1 and returns a handle holding the key and a clone
of the entry's observable (the registry reference of the handle is the
threaded map state); afterwards the map holds exactly one entry for that
key. -/
theorem claim_C1_get_or_insert (m : SubscriptionMap K V) (k : K) (v : V)
    (hone : countKey m k ≤ 1) :
    (SubscriptionMap.get_or_insert m k v).1.key = k ∧
    countKey (SubscriptionMap.get_or_insert m k v).2 k = 1 ∧
    (SubscriptionEntry.new v).rc = 0 ∧
    (SubscriptionEntry.new v).observable = Observable.new v ∧
    (lookupEntry m k = none →
      lookupEntry (SubscriptionMap.get_or_insert m k v).2 k =
        some { observable := Observable.new v, rc := 1 } ∧
      (SubscriptionMap.get_or_insert m k v).1.observable = (Observable.new v).clone) ∧
    (∀ e, lookupEntry m k = some e →
      lookupEntry (SubscriptionMap.get_or_insert m k v).2 k =
        some { observable := e.observable, rc := e.rc + 1 } ∧
      (SubscriptionMap.get_or_insert m k v).1.observable = e.observable.clone) := by
  cases hlk : lookupEntry m k with
  | none =>
    rw [get_or_insert_absent m k v hlk]
    have hc0 : countKey m k = 0 := (countKey_eq_zero_iff m k).mpr hlk
    refine ⟨rfl, ?_, rfl, rfl, fun _ => ⟨?_, rfl⟩, fun e he => Option.noConfusion he⟩
    · rw [countKey_append_self, hc0]
    · exact lookupEntry_append_self m k _ hlk
  | some e0 =>
    rw [get_or_insert_present m k v e0 hlk]
    have h1 : 1 ≤ countKey m k := lookupEntry_some_countKey_pos m k e0 hlk
    refine ⟨rfl, ?_, rfl, rfl, fun hn => Option.noConfusion hn, fun e he => ?_⟩
    · rw [countKey_setEntry]
      omega
    · have heq : e = e0 := (Option.some_inj.mp he).symm
      subst heq
      exact ⟨lookupEntry_setEntry_self m k _ e hlk, rfl⟩

theorem claim_C1_witness :
    (SubscriptionMap.get_or_insert ([] : SubscriptionMap String Nat) "a" 0).1.key = "a" ∧
    countKey (SubscriptionMap.get_or_insert
      ([] : SubscriptionMap String Nat) "a" 0).2 "a" = 1 ∧
    lookupEntry (SubscriptionMap.get_or_insert
      ([] : SubscriptionMap String Nat) "a" 0).2 "a" =
      some { observable := Observable.new 0, rc := 1 } := by
  have h := claim_C1_get_or_insert ([] : SubscriptionMap String Nat) "a" 0 (by decide)
  exact ⟨h.1, h.2.1, (h.2.2.2.2.1 rfl).1⟩

/-- Claim C6: `publish_if_changed` returns the NotFound error when the map
holds no entry for the key; when an entry is present it returns `Ok` of the
boolean produced by the observable's change-detecting publish: `false`
exactly when the value equals the current one, `true` exactly when a new
version is actually emitted. -/
theorem claim_C6_publish_if_changed [DecidableEq V] (m : SubscriptionMap K V)
    (k : K) (v : V) :
    (lookupEntry m k = none →
      (SubscriptionMap.publish_if_changed m k v).1 = Except.error MapError.notFound) ∧
    (∀ e, lookupEntry m k = some e →
      (SubscriptionMap.publish_if_changed m k v).1 =
        Except.ok (e.observable.publish_if_changed v).1 ∧
      ((e.observable.publish_if_changed v).1 = false ↔ v = e.observable.value) ∧
      ((e.observable.publish_if_changed v).1 = true ↔
        (e.observable.publish_if_changed v).2.version = e.observable.version + 1)) := by
  constructor
  · intro h
    simp [SubscriptionMap.publish_if_changed, h]
  · intro e he
    refine ⟨by simp [SubscriptionMap.publish_if_changed, he], ?_, ?_⟩
    · by_cases hv : v = e.observable.value <;> simp [Observable.publish_if_changed, hv]
    · by_cases hv : v = e.observable.value <;> simp [Observable.publish_if_changed, hv]

theorem claim_C6_witness :
    (SubscriptionMap.publish_if_changed
      ([("a", { observable := { value := 5, version := 0 }, rc := 1 })] :
        SubscriptionMap String Nat) "a" 5).1 = Except.ok false ∧
    (SubscriptionMap.publish_if_changed
      ([] : SubscriptionMap String Nat) "a" 5).1 = Except.error MapError.notFound := by
  constructor
  · have h := (claim_C6_publish_if_changed
      ([("a", { observable := { value := 5, version := 0 }, rc := 1 })] :
        SubscriptionMap String Nat) "a" 5).2
      { observable := { value := 5, version := 0 }, rc := 1 } rfl
    rw [h.1]
    rfl
  · exact (claim_C6_publish_if_changed ([] : SubscriptionMap String Nat) "a" 5).1 rfl

/-- Claim C7: `modify_and_publish` returns the NotFound error when the map
holds no entry for the key; when an entry is present it applies the mutator
to the entry's current value through the observable's read-modify-publish and
unconditionally produces a new observable version — for every mutator,
including one leaving the value unchanged — returning success. -/
theorem claim_C7_modify_and_publish (m : SubscriptionMap K V) (k : K) (f : V → V) :
    (lookupEntry m k = none →
      (SubscriptionMap.modify_and_publish m k f).1 = Except.error MapError.notFound) ∧
    (∀ e, lookupEntry m k = some e →
      (SubscriptionMap.modify_and_publish m k f).1 = Except.ok () ∧
      lookupEntry (SubscriptionMap.modify_and_publish m k f).2 k =
        some { observable := { value := f e.observable.value,
                               version := e.observable.version + 1 },
               rc := e.rc } ∧
      (∀ o : Observable V, (o.modify f).version = o.version + 1)) := by
  constructor
  · intro h
    simp [SubscriptionMap.modify_and_publish, h]
  · intro e he
    refine ⟨by simp [SubscriptionMap.modify_and_publish, he], ?_, fun o => rfl⟩
    simp only [SubscriptionMap.modify_and_publish, he]
    exact lookupEntry_setEntry_self m k _ e he

theorem claim_C7_witness :
    lookupEntry (SubscriptionMap.modify_and_publish
      ([("a", { observable := { value := 5, version := 0 }, rc := 1 })] :
        SubscriptionMap String Nat) "a" (fun x => x)).2 "a" =
      some { observable := { value := 5, version := 1 }, rc := 1 } :=
  ((claim_C7_modify_and_publish
    ([("a", { observable := { value := 5, version := 0 }, rc := 1 })] :
      SubscriptionMap String Nat) "a" (fun x => x)).2
    { observable := { value := 5, version := 0 }, rc := 1 } rfl).2.1

/-- Claim C8: from an empty registry, `get_or_insert` of key "a" yields H1
with map size 1; a second `get_or_insert` of "a" yields H2 with size still 1
and entry refcount 2; releasing H1 leaves size 1 and refcount exactly 1;
releasing H2 leaves size 0. -/
theorem claim_C8_scenario :
    let m0 : SubscriptionMap String Nat := []
    let s1 := SubscriptionMap.get_or_insert m0 "a" 0
    let s2 := SubscriptionMap.get_or_insert s1.2 "a" 0
    let s3 := SubscriptionRef.drop s2.2 s1.1.key
    let s4 := SubscriptionRef.drop s3.2 s2.1.key
    s1.2.length = 1 ∧
    s2.2.length = 1 ∧
    (lookupEntry s2.2 "a").map SubscriptionEntry.rc = some 2 ∧
    s3.2.length = 1 ∧
    (lookupEntry s3.2 "a").map SubscriptionEntry.rc = some 1 ∧
    s4.2.length = 0 := by
  decide

/-- Claim C9: for a key already present in the map, `get_or_insert` leaves
the existing entry's observable — hence its stored value — unchanged for
every initial value: the freshly built count-0 entry is discarded, the
returned handle's cursor is a clone of the pre-existing observable, other
keys are untouched, and the result does not depend on the initial-value
argument at all. -/
theorem claim_C9_existing_key_frame (m : SubscriptionMap K V) (k : K) (v : V)
    (e : SubscriptionEntry V) (h : lookupEntry m k = some e) :
    (SubscriptionMap.get_or_insert m k v).1.observable = e.observable.clone ∧
    lookupEntry (SubscriptionMap.get_or_insert m k v).2 k =
      some { observable := e.observable, rc := e.rc + 1 } ∧
    (∀ k2, k2 ≠ k →
      lookupEntry (SubscriptionMap.get_or_insert m k v).2 k2 = lookupEntry m k2) ∧
    (∀ v2, SubscriptionMap.get_or_insert m k v = SubscriptionMap.get_or_insert m k v2) := by
  rw [get_or_insert_present m k v e h]
  refine ⟨rfl, lookupEntry_setEntry_self m k _ e h, ?_, ?_⟩
  · intro k2 hk2
    exact lookupEntry_setEntry_ne m k k2 _ hk2
  · intro v2
    rw [get_or_insert_present m k v2 e h]

theorem claim_C9_witness :
    SubscriptionMap.get_or_insert
      ([("a", { observable := { value := 5, version := 2 }, rc := 1 })] :
        SubscriptionMap String Nat) "a" 99 =
    SubscriptionMap.get_or_insert
      ([("a", { observable := { value := 5, version := 2 }, rc := 1 })] :
        SubscriptionMap String Nat) "a" 0 :=
  (claim_C9_existing_key_frame
    ([("a", { observable := { value := 5, version := 2 }, rc := 1 })] :
      SubscriptionMap String Nat) "a" 99
    { observable := { value := 5, version := 2 }, rc := 1 } rfl).2.2.2 0

/-- Claim C10: when `publish_if_changed` or `modify_and_publish` is called on
a key absent from the map, the failure is atomic: the NotFound error is
returned and the map state is left entirely unchanged. -/
theorem claim_C10_notfound_atomic [DecidableEq V] (m : SubscriptionMap K V) (k : K)
    (v : V) (f : V → V) (h : lookupEntry m k = none) :
    SubscriptionMap.publish_if_changed m k v = (Except.error MapError.notFound, m) ∧
    SubscriptionMap.modify_and_publish m k f = (Except.error MapError.notFound, m) := by
  constructor
  · simp [SubscriptionMap.publish_if_changed, h]
  · simp [SubscriptionMap.modify_and_publish, h]

theorem claim_C10_witness :
    SubscriptionMap.publish_if_changed ([] : SubscriptionMap String Nat) "a" 1 =
      (Except.error MapError.notFound, []) ∧
    SubscriptionMap.modify_and_publish ([] : SubscriptionMap String Nat) "a"
      (fun x => x + 1) = (Except.error MapError.notFound, []) :=
  claim_C10_notfound_atomic ([] : SubscriptionMap String Nat) "a" 1 (fun x => x + 1) rfl

/-- Claim C2: steady-state invariant — an entry is present in the registry
exactly when its subscriber count is at least 1: the empty map satisfies the
invariant that every present entry has count ≥ 1, and both `get_or_insert`
and a full handle release preserve it; moreover releasing the only live
handle for a key (count exactly 1) leaves the key absent from the map
immediately, within that very release. -/
theorem claim_C2_steady_state (m : SubscriptionMap K V) (k : K) (v : V)
    (e : SubscriptionEntry V) (hone : countKey m k ≤ 1) :
    SteadyInv ([] : SubscriptionMap K V) ∧
    (SteadyInv m → SteadyInv (SubscriptionMap.get_or_insert m k v).2) ∧
    (SteadyInv m → SteadyInv (SubscriptionRef.drop m k).2) ∧
    (lookupEntry m k = some e → e.rc = 1 →
      lookupEntry (SubscriptionRef.drop m k).2 k = none) := by
  refine ⟨fun p hp => absurd hp (List.not_mem_nil p), ?_, ?_, ?_⟩
  · intro hinv p hp
    cases hlk : lookupEntry m k with
    | none =>
      rw [get_or_insert_absent m k v hlk] at hp
      rcases List.mem_append.mp hp with h1 | h1
      · exact hinv p h1
      · have : p = (k, { observable := Observable.new v, rc := 1 }) :=
          List.mem_singleton.mp h1
        rw [this]
      -- the fresh entry enters the map with its count already incremented to 1
    | some e0 =>
      rw [get_or_insert_present m k v e0 hlk] at hp
      rcases setEntry_entry_mem _ _ _ p hp with h1 | h1
      · rw [h1]
        exact Nat.le_add_left 1 e0.rc
      · exact hinv p h1
  · intro hinv p hp
    cases hlk : lookupEntry m k with
    | none =>
      rw [drop_absent m k hlk] at hp
      exact hinv p hp
    | some e0 =>
      have h1 : 1 ≤ e0.rc := hinv (k, e0) (lookupEntry_mem m k e0 hlk)
      by_cases h2 : e0.rc = 1
      · rw [drop_last m k e0 hlk h2] at hp
        exact hinv p (mem_eraseKey m k p hp)
      · have h3 : 2 ≤ e0.rc := by omega
        rw [drop_decrement m k e0 hlk h3] at hp
        rcases setEntry_entry_mem _ _ _ p hp with h4 | h4
        · rw [h4]
          show 1 ≤ e0.rc - 1
          omega
        · exact hinv p h4
  · intro hlk h1
    rw [drop_last m k e hlk h1]
    show lookupEntry (eraseKey m k) k = none
    have hpos : 1 ≤ countKey m k := lookupEntry_some_countKey_pos m k e hlk
    have herase := countKey_eraseKey_self m k
    exact (countKey_eq_zero_iff _ _).mp (by omega)

theorem claim_C2_witness :
    lookupEntry (SubscriptionRef.drop
      ([("a", { observable := Observable.new 0, rc := 1 })] : SubscriptionMap String Nat)
      "a").2 "a" = none := by
  have h := claim_C2_steady_state
    ([("a", { observable := Observable.new 0, rc := 1 })] : SubscriptionMap String Nat)
    "a" 0 { observable := Observable.new 0, rc := 1 } (by decide)
  exact h.2.2.2 rfl rfl

/-- Claim C3: handle destruction — it locks the registry and looks the entry
up by the handle's key; when the entry is missing it aborts the cleanup with
the logged `entryMissing` outcome, propagating nothing and leaving the map
untouched; otherwise it decrements the count by 1, and only when the
decremented count is 0 does it go on to invoke the registry's `remove` (a
second, separate critical section against the post-decrement state), whose
result is carried in the logged outcome rather than propagated. -/
theorem claim_C3_drop_protocol (m : SubscriptionMap K V) (k : K) :
    (lookupEntry m k = none →
      SubscriptionRef.drop m k = (DropOutcome.entryMissing, m)) ∧
    (∀ e, lookupEntry m k = some e → 2 ≤ e.rc →
      SubscriptionRef.drop m k =
        (DropOutcome.decremented, setEntry m k { e with rc := e.rc - 1 })) ∧
    (∀ e, lookupEntry m k = some e → e.rc = 1 →
      SubscriptionRef.drop m k =
        (DropOutcome.removed
          (SubscriptionMap.remove (setEntry m k { e with rc := 0 }) k).1,
         (SubscriptionMap.remove (setEntry m k { e with rc := 0 }) k).2)) := by
  refine ⟨drop_absent m k, drop_decrement m k, ?_⟩
  intro e he h1
  simp [SubscriptionRef.drop, he, h1]

theorem claim_C3_witness :
    SubscriptionRef.drop
      ([("a", { observable := Observable.new 0, rc := 2 })] : SubscriptionMap String Nat)
      "a" =
      (DropOutcome.decremented,
       [("a", { observable := Observable.new 0, rc := 1 })]) := by
  have h := (claim_C3_drop_protocol
    ([("a", { observable := Observable.new 0, rc := 2 })] : SubscriptionMap String Nat)
    "a").2.1 { observable := Observable.new 0, rc := 2 } rfl (by decide)
  rw [h]
  rfl

/-- Claim C4: `remove` — under the lock, an absent key yields the returned
(recoverable) not-found error with the map unchanged; a present entry whose
count differs from 0 makes the `assert!` panic (fatal invariant breach — no
silent proceed or no-op, no deletion); a present entry with count exactly 0
has its map slot deleted and the call returns success. -/
theorem claim_C4_remove (m : SubscriptionMap K V) (k : K) :
    (lookupEntry m k = none →
      SubscriptionMap.remove m k = (RemoveResult.errNotFound, m)) ∧
    (∀ e, lookupEntry m k = some e → e.rc ≠ 0 →
      SubscriptionMap.remove m k = (RemoveResult.panicked, m)) ∧
    (∀ e, lookupEntry m k = some e → e.rc = 0 →
      SubscriptionMap.remove m k = (RemoveResult.ok, eraseKey m k) ∧
      (countKey m k ≤ 1 → lookupEntry (eraseKey m k) k = none)) := by
  refine ⟨?_, ?_, ?_⟩
  · intro h
    simp [SubscriptionMap.remove, h]
  · intro e he h0
    simp [SubscriptionMap.remove, he, h0]
  · intro e he h0
    refine ⟨by simp [SubscriptionMap.remove, he, h0], fun hone => ?_⟩
    have h1 := lookupEntry_some_countKey_pos m k e he
    have h2 := countKey_eraseKey_self m k
    exact (countKey_eq_zero_iff _ _).mp (by omega)

theorem claim_C4_witness :
    SubscriptionMap.remove
      ([("a", { observable := Observable.new 0, rc := 2 })] : SubscriptionMap String Nat)
      "a" =
      (RemoveResult.panicked,
       [("a", { observable := Observable.new 0, rc := 2 })]) ∧
    SubscriptionMap.remove
      ([("b", { observable := Observable.new 1, rc := 0 })] : SubscriptionMap String Nat)
      "b" = (RemoveResult.ok, []) := by
  constructor
  · exact (claim_C4_remove
      ([("a", { observable := Observable.new 0, rc := 2 })] : SubscriptionMap String Nat)
      "a").2.1 { observable := Observable.new 0, rc := 2 } rfl (by decide)
  · have h := ((claim_C4_remove
      ([("b", { observable := Observable.new 1, rc := 0 })] : SubscriptionMap String Nat)
      "b").2.2 { observable := Observable.new 1, rc := 0 } rfl rfl).1
    rw [h]
    rfl

/-- Claim C5 counterexample: the claim predicts that the removal step,
observing under the lock at the delete instant a count above zero (an entry
resurrected by a `get_or_insert` in the window between the destructor's
decrement and its `remove` call), skips the removal as a benign outcome; on
the code, `remove` observing count 1 for key "a" instead fails its
`assert!` — the outcome is the fatal `panicked`, not a benign skip. -/
theorem claim_C5_counterexample :
    (SubscriptionMap.remove
      ([("a", { observable := Observable.new 0, rc := 1 })] : SubscriptionMap String Nat)
      "a").1 = RemoveResult.panicked := by
  rfl

/-- Claim C5 (amended): when the removal step that follows a destructor's
decrement observes, under the lock at the delete instant, that the key's
entry has a count above zero, it treats this as a fatal invariant
violation — the `assert!` panics and the slot is not deleted — rather than
skipping the removal as a benign outcome. -/
theorem claim_C5_amended (m : SubscriptionMap K V) (k : K) (e : SubscriptionEntry V)
    (h : lookupEntry m k = some e) (h0 : e.rc ≠ 0) :
    SubscriptionMap.remove m k = (RemoveResult.panicked, m) := by
  simp [SubscriptionMap.remove, h, h0]

theorem claim_C5_amended_witness :
    SubscriptionMap.remove
      ([("b", { observable := Observable.new 3, rc := 1 })] : SubscriptionMap String Nat)
      "b" =
      (RemoveResult.panicked,
       [("b", { observable := Observable.new 3, rc := 1 })]) :=
  claim_C5_amended
    ([("b", { observable := Observable.new 3, rc := 1 })] : SubscriptionMap String Nat)
    "b" { observable := Observable.new 3, rc := 1 } rfl (by decide)

end AsyncSubscriptionMap
